import Mathlib

set_option linter.unusedVariables false

/-!
Verification development for the eye-tracker core of this repository
(src/static/eye_tracker.py).  The Python module is shallowly embedded:

* Python floats arising in the gaze pipeline are modelled by `PyFloat`
  (either the IEEE NaN sentinel or a finite value, represented as a
  rational); all arithmetic that the claims depend on is exact over ℚ.
* The single Python exception class `EyeTrackerError` is refined into the
  error-kind inductive `Err`, one constructor per distinct raise site
  (distinct message) of the source.
* Mutation of `self` is state passing: a method that mutates the
  calibration model or the tracker returns the updated structure next to
  its `Except` outcome.
* The environment a run depends on (availability of cv2/numpy, the
  successive values returned by `time.time()`, and the numeric intensity
  statistics of the default feature extractor, which are floating point
  computations over images no claim depends on) is an explicit `Env`
  record; theorems quantify over it.
* The camera is modelled by the finite list of frames it successfully
  delivers before the first failed read / end of stream, since the
  generator `frames()` stops at the first failed read and is finished
  from then on.
-/

/-- Values of Python `float` produced by the gaze pipeline: the NaN
sentinel returned by an unfitted model, or a finite value modelled as a
rational. -/
inductive PyFloat
  | nan
  | num (q : ℚ)
deriving DecidableEq

/-- Error kinds of the Python exception class `EyeTrackerError`, one
constructor per raise site (message) of src/static/eye_tracker.py.
`calibrationFailed` is the wrapper raised by `EyeTracker.calibrate`
around the underlying `fit` failure. -/
inductive Err
  | streamNotOpen
  | deviceUnavailable
  | cv2Unavailable
  | dependenciesUnavailable
  | numpyUnavailable
  | noCalibrationSamples
  | inconsistentFeatureDimension
  | preprocessFailure
  | featureExtractionFailure
  | gazeEstimationFailure
  | calibrationFailed (inner : Err)
deriving DecidableEq

/-- Embedding of the dataclass `CalibrationSample`: a feature vector, a
target screen coordinate and a capture timestamp. -/
structure CalibrationSample where
  features : List ℚ
  target_xy : ℚ × ℚ
  timestamp : ℚ
deriving DecidableEq

/-- Embedding of the dataclass `CalibrationModel`: affine parameters
`W`, `b`, both `None` until `fit` succeeds.  `fit` only ever stores a
two-element bias list `[x, y]`, modelled as the pair `b`. -/
structure CalibrationModel where
  W : Option (List (List ℚ)) := none
  b : Option (ℚ × ℚ) := none
deriving DecidableEq

/-- Embedding of `CalibrationModel.fit`.  The Python method mutates
`self.W`, `self.b` only after all checks have passed, so the embedding
returns the updated model next to the `Except` outcome and leaves the
model untouched on the error paths, exactly as the source does.  The
accumulation loop over `samples` computing `mean_xy` is rendered as the
sum of the mapped targets divided by `n` (the source also computes a
`mean_feat` vector that is never used afterwards; it is omitted). -/
def CalibrationModel.fit (m : CalibrationModel) (samples : List CalibrationSample) :
    CalibrationModel × Except Err Unit :=
  match samples with
  | [] => (m, .error .noCalibrationSamples)
  | s0 :: _ =>
      let feat_dim := s0.features.length
      if samples.all (fun s => s.features.length == feat_dim) then
        let n : ℚ := samples.length
        let mean_x : ℚ := (samples.map (fun s => s.target_xy.1)).sum / n
        let mean_y : ℚ := (samples.map (fun s => s.target_xy.2)).sum / n
        ({ W := some (List.replicate 2 (List.replicate feat_dim 0)),
           b := some (mean_x, mean_y) }, .ok ())
      else (m, .error .inconsistentFeatureDimension)

/-- Embedding of `CalibrationModel.predict`: the NaN sentinel pair when
either parameter is unset, otherwise the stored bias (the mean target);
the feature argument is ignored by the baseline.  The source returns in
the unfitted branch before touching `b`, so the method cannot raise
there; the embedding is correspondingly total. -/
def CalibrationModel.predict (m : CalibrationModel) (features : List ℚ) :
    PyFloat × PyFloat :=
  match m.W, m.b with
  | some _, some bv => (.num bv.1, .num bv.2)
  | _, _ => (.nan, .nan)

/-- Iterated calls of `fit`, threading the (possibly unchanged) model
state. -/
def CalibrationModel.fitAll (m : CalibrationModel) :
    List (List CalibrationSample) → CalibrationModel
  | [] => m
  | b :: rest => CalibrationModel.fitAll (m.fit b).1 rest

/-- A failing `fit` leaves the model state untouched. -/
lemma CalibrationModel.fit_error_fst (m : CalibrationModel)
    (samples : List CalibrationSample) (e : Err)
    (h : (m.fit samples).2 = .error e) : (m.fit samples).1 = m := by
  cases samples with
  | nil => rfl
  | cons s0 rest =>
      unfold CalibrationModel.fit at h ⊢
      by_cases hall : ((s0 :: rest).all fun s => s.features.length == s0.features.length) = true
      · simp [hall] at h
      · simp [hall]

/-- Whether `fit` succeeds or fails, and with which error, depends only
on the samples, never on the current model state. -/
lemma CalibrationModel.fit_snd_indep (m₁ m₂ : CalibrationModel)
    (samples : List CalibrationSample) :
    (m₁.fit samples).2 = (m₂.fit samples).2 := by
  cases samples with
  | nil => rfl
  | cons s0 rest =>
      unfold CalibrationModel.fit
      by_cases hall : ((s0 :: rest).all fun s => s.features.length == s0.features.length) = true
      · simp [hall]
      · simp [hall]

/-- The model constructed by Python dataclass defaults: both parameters
unset. -/
def CalibrationModel.init : CalibrationModel where
  W := none
  b := none

/-- C1: after `CalibrationModel.fit` succeeds on a sample list, `predict`
of every feature vector is the arithmetic mean of the samples' target
coordinates (sum of each coordinate divided by the number of samples). -/
theorem fit_predict_mean (m m₂ : CalibrationModel)
    (samples : List CalibrationSample)
    (h : m.fit samples = (m₂, .ok ())) (f : List ℚ) :
    m₂.predict f =
      (.num ((samples.map (fun s => s.target_xy.1)).sum / (samples.length : ℚ)),
       .num ((samples.map (fun s => s.target_xy.2)).sum / (samples.length : ℚ))) := by
  cases samples with
  | nil => simp [CalibrationModel.fit] at h
  | cons s0 rest =>
      unfold CalibrationModel.fit at h
      by_cases hall : ((s0 :: rest).all fun s => s.features.length == s0.features.length) = true
      · simp only [hall, if_true] at h
        have hm : m₂ = { W := some (List.replicate 2 (List.replicate s0.features.length 0)),
                         b := some (((s0 :: rest).map (fun s => s.target_xy.1)).sum / ((s0 :: rest).length : ℚ),
                                    ((s0 :: rest).map (fun s => s.target_xy.2)).sum / ((s0 :: rest).length : ℚ)) } := by
          have := congrArg Prod.fst h
          simpa using this.symm
        subst hm
        rfl
      · simp [hall] at h

/-- C1 witness: fitting on targets (0,0) and (1,1) makes `predict` of an
arbitrary input equal (1/2, 1/2). -/
theorem fit_predict_mean_witness :
    ((CalibrationModel.init.fit
        [⟨[1, 2], (0, 0), 0⟩, ⟨[3, 4], (1, 1), 1⟩]).1).predict [9, 9, 9] =
      (.num (1 / 2), .num (1 / 2)) := by
  have h := fit_predict_mean CalibrationModel.init
    ((CalibrationModel.init.fit [⟨[1, 2], (0, 0), 0⟩, ⟨[3, 4], (1, 1), 1⟩]).1)
    [⟨[1, 2], (0, 0), 0⟩, ⟨[3, 4], (1, 1), 1⟩] rfl [9, 9, 9]
  simp only [h]
  norm_num

/-- C4: `fit` raises `NoCalibrationSamples` exactly on the empty list;
on a non-empty list it raises `InconsistentFeatureDimension` exactly when
some sample's feature-vector length differs from the first sample's, and
succeeds whenever the lengths are uniform. -/
theorem fit_error_characterisation (m : CalibrationModel)
    (samples : List CalibrationSample) :
    ((m.fit samples).2 = .error .noCalibrationSamples ↔ samples = []) ∧
    (∀ s0 rest, samples = s0 :: rest →
      (((m.fit samples).2 = .error .inconsistentFeatureDimension ↔
          ∃ s ∈ samples, s.features.length ≠ s0.features.length) ∧
       ((∀ s ∈ samples, s.features.length = s0.features.length) →
          (m.fit samples).2 = .ok ()))) := by
  constructor
  · cases samples with
    | nil => simp [CalibrationModel.fit]
    | cons s0 rest =>
        unfold CalibrationModel.fit
        by_cases hall : ((s0 :: rest).all fun s => s.features.length == s0.features.length) = true
        · simp [hall]
        · simp [hall]
  · intro s0 rest hs
    subst hs
    by_cases hall : ((s0 :: rest).all fun s => s.features.length == s0.features.length) = true
    · have huni : ∀ s ∈ s0 :: rest, s.features.length = s0.features.length := by
        intro s hsmem
        have := List.all_eq_true.mp hall s hsmem
        simpa using this
      constructor
      · simp only [CalibrationModel.fit, hall, if_true]
        constructor
        · intro hcontra
          simp at hcontra
        · rintro ⟨s, hsmem, hne⟩
          exact absurd (huni s hsmem) hne
      · intro _
        simp [CalibrationModel.fit, hall]
    · have hnon : ∃ s ∈ s0 :: rest, s.features.length ≠ s0.features.length := by
        by_contra hcon
        push_neg at hcon
        apply hall
        exact List.all_eq_true.mpr (fun s hsmem => by simpa using hcon s hsmem)
      constructor
      · simp only [CalibrationModel.fit, hall, if_false]
        constructor
        · intro _
          exact hnon
        · intro _
          rfl
      · intro huni
        obtain ⟨s, hsmem, hne⟩ := hnon
        exact absurd (huni s hsmem) hne

/-- C4 witness: `fit` on feature-vector lengths [2, 2, 3] fails with
`InconsistentFeatureDimension`, and `fit` on the empty list fails with
`NoCalibrationSamples`. -/
theorem fit_error_characterisation_witness :
    (CalibrationModel.init.fit
        [⟨[0, 0], (0, 0), 0⟩, ⟨[1, 1], (0, 0), 0⟩, ⟨[2, 2, 2], (0, 0), 0⟩]).2 =
      .error .inconsistentFeatureDimension ∧
    (CalibrationModel.init.fit []).2 = .error .noCalibrationSamples := by
  constructor
  · have h := (fit_error_characterisation CalibrationModel.init
      [⟨[0, 0], (0, 0), 0⟩, ⟨[1, 1], (0, 0), 0⟩, ⟨[2, 2, 2], (0, 0), 0⟩]).2
      ⟨[0, 0], (0, 0), 0⟩ [⟨[1, 1], (0, 0), 0⟩, ⟨[2, 2, 2], (0, 0), 0⟩] rfl
    exact h.1.mpr ⟨⟨[2, 2, 2], (0, 0), 0⟩, by decide, by decide⟩
  · exact (fit_error_characterisation CalibrationModel.init []).1.mpr rfl

/-- C10: `fit` is atomic on failure: on every sample list on which it
raises, the weight matrix and bias are exactly as before the call, so
`predict` behaves identically before and after the failed fit. -/
theorem fit_atomic_on_failure (m : CalibrationModel)
    (samples : List CalibrationSample) (e : Err)
    (h : (m.fit samples).2 = .error e) :
    (m.fit samples).1 = m ∧
      ∀ f, ((m.fit samples).1).predict f = m.predict f := by
  have h1 := CalibrationModel.fit_error_fst m samples e h
  exact ⟨h1, fun f => by rw [h1]⟩

/-- C10 witness: a failed `fit` (empty sample list) on a fitted model
leaves the parameters and the predictions unchanged. -/
theorem fit_atomic_on_failure_witness :
    ((CalibrationModel.mk (some [[1]]) (some (2, 3))).fit []).1 =
        CalibrationModel.mk (some [[1]]) (some (2, 3)) ∧
    (((CalibrationModel.mk (some [[1]]) (some (2, 3))).fit []).1).predict [4] =
        (.num 2, .num 3) := by
  have h := fit_atomic_on_failure (CalibrationModel.mk (some [[1]]) (some (2, 3)))
    [] .noCalibrationSamples rfl
  exact ⟨h.1, by rw [h.2 [4]]; rfl⟩

/-- C5: on a model on which `fit` has never succeeded (the initial model
followed by any sequence of failing `fit` calls), `predict` of every
feature vector returns the (NaN, NaN) sentinel; `predict` is total, so
no error can be raised. -/
theorem predict_before_fit_nan (batches : List (List CalibrationSample))
    (h : ∀ b ∈ batches, ∃ e, (CalibrationModel.init.fit b).2 = .error e)
    (f : List ℚ) :
    (CalibrationModel.init.fitAll batches).predict f = (.nan, .nan) := by
  have hfix : CalibrationModel.init.fitAll batches = CalibrationModel.init := by
    induction batches with
    | nil => rfl
    | cons b rest ih =>
        have hb := h b (List.mem_cons_self b rest)
        obtain ⟨e, he⟩ := hb
        have hfst : (CalibrationModel.init.fit b).1 = CalibrationModel.init :=
          CalibrationModel.fit_error_fst _ _ _ he
        show CalibrationModel.fitAll (CalibrationModel.init.fit b).1 rest = _
        rw [hfst]
        exact ih (fun b2 hb2 => h b2 (List.mem_cons_of_mem _ hb2))
  rw [hfix]
  rfl

/-- C5 witness: after a failing `fit` call on the fresh model, `predict`
still returns the sentinel pair. -/
theorem predict_before_fit_nan_witness :
    (CalibrationModel.init.fitAll [[]]).predict [1, 2] = (.nan, .nan) := by
  exact predict_before_fit_nan [[]]
    (fun b hb => by
      have hb2 : b = [] := by simpa using hb
      exact ⟨.noCalibrationSamples, by rw [hb2]; rfl⟩) [1, 2]

/-- Abstract image frames delivered by the capture device; their pixel
content is opaque to every claim, so frames are plain tokens. -/
abbrev Frame := Nat

/-- Embedding of the dataclass `CameraConfig`. -/
structure CameraConfig where
  source : Nat ⊕ String := Sum.inl 0
  width : Option Nat := none
  height : Option Nat := none
  fps : Option Nat := none
  backend : Option Nat := none

/-- The environment a run of the tracker depends on: whether the lazy
imports of cv2 and numpy succeeded (constant for the process), the
successive values produced by `time.time()` (consulted by call index, an
arbitrary sequence), and the intensity statistics (mean, standard
deviation) that the default feature extractor computes from a frame,
abstracted as an arbitrary function since no claim depends on the pixel
arithmetic. -/
structure Env where
  cv2Available : Bool
  npAvailable : Bool
  clock : Nat → ℚ
  grayStats : Frame → ℚ × ℚ

/-- Outcome of attempting to construct the cv2.VideoCapture handle in
`open`: the constructor raises, or it yields a capture object whose
`isOpened()` is the given boolean. -/
inductive DeviceOutcome
  | createRaises
  | created (isOpened : Bool)

/-- Embedding of the dataclass `EyeTracker`: configuration, the three
optional override stages (an override that raises is an `Except.error`),
the calibration model and the internal mutable fields.  The capture
handle `_cap` carries no data of its own (the frames the device delivers
are part of the run, not of the handle), so only its presence is kept. -/
structure EyeTracker where
  camera_config : CameraConfig := {}
  preprocess_fn : Option (Frame → Except Unit Frame) := none
  feature_extractor : Option (Frame → Except Unit (List ℚ)) := none
  gaze_estimator : Option (List ℚ → Except Unit (PyFloat × PyFloat)) := none
  calibration_model : CalibrationModel := {}
  _cap : Option Unit := none
  _is_open : Bool := false
  _frame_count : Nat := 0
  _last_frame_ts : ℚ := 0
  _recent_fps : List ℚ := []

/-- Append to the bounded FPS deque (`collections.deque(maxlen=60)`):
when full, the oldest samples are dropped so that at most 60 remain. -/
def pushFps (w : List ℚ) (x : ℚ) : List ℚ :=
  if w.length < 60 then w ++ [x] else (w.drop (w.length - 59)) ++ [x]

/-- The per-yield state update of the generator `frames()`: increment the
frame counter, record the inter-frame delta against the previous
timestamp and append the instantaneous rate to the FPS window when the
delta is positive. -/
def EyeTracker.recordFrame (t : EyeTracker) (ts : ℚ) : EyeTracker :=
  let dt := ts - t._last_frame_ts
  { t with
      _frame_count := t._frame_count + 1,
      _last_frame_ts := ts,
      _recent_fps := if 0 < dt then pushFps t._recent_fps (1 / dt) else t._recent_fps }

/-- Embedding of `EyeTracker.open`: fails if cv2 is unavailable; is a
no-op when already open; otherwise fails when the capture handle cannot
be created or does not report itself opened, and on success stores the
handle, marks the tracker open, zeroes the frame counter, seeds the
previous-frame timestamp with the current time and clears the FPS
window.  (`open` is a Lean keyword, hence the name `doOpen`.) -/
def EyeTracker.doOpen (env : Env) (dev : DeviceOutcome) (now : ℚ) (t : EyeTracker) :
    Except Err EyeTracker :=
  if env.cv2Available = false then .error .cv2Unavailable
  else if t._is_open then .ok t
  else
    match dev with
    | .createRaises => .error .deviceUnavailable
    | .created false => .error .deviceUnavailable
    | .created true =>
        .ok { t with
                _cap := some (),
                _is_open := true,
                _frame_count := 0,
                _last_frame_ts := now,
                _recent_fps := [] }

/-- Embedding of `EyeTracker.get_fps`: 0 on an empty window, else the
middle element of the sorted window for an odd count, and half the sum
of the two middle elements for an even count.  Python's `sorted` is
rendered as insertion sort (any stable comparison sort; only the sorted
value sequence matters here). -/
def EyeTracker.get_fps (t : EyeTracker) : ℚ :=
  if t._recent_fps.isEmpty then 0
  else
    let arr := List.insertionSort (fun a b => a ≤ b) t._recent_fps
    let mid := arr.length / 2
    if arr.length % 2 = 1 then arr.getD mid 0
    else (1 / 2) * (arr.getD (mid - 1) 0 + arr.getD mid 0)

/-- C8: `open` is idempotent.  A successful `open` leaves the tracker
Open; from that state every further `open` call, whatever the device
would do and whatever the time, is a no-op returning the state
unchanged (frame counter and FPS window untouched); and the FPS window
and frame counter are reset at a successful open from the Closed state,
hence exactly once across the first successful open and all later
calls. -/
theorem open_idempotent (env : Env) (dev : DeviceOutcome) (now : ℚ)
    (t t₂ : EyeTracker) (h : t.doOpen env dev now = .ok t₂) :
    t₂._is_open = true ∧
    (∀ dev₂ now₂, t₂.doOpen env dev₂ now₂ = .ok t₂) ∧
    (t._is_open = false →
      t₂._frame_count = 0 ∧ t₂._recent_fps = [] ∧ t₂._last_frame_ts = now) := by
  unfold EyeTracker.doOpen at h
  by_cases hcv : env.cv2Available = false
  · simp [hcv] at h
  · simp only [hcv, if_false] at h
    by_cases hopen : t._is_open = true
    · simp only [hopen, if_true] at h
      have ht : t₂ = t := by
        cases h
        rfl
      subst ht
      refine ⟨hopen, ?_, ?_⟩
      · intro dev₂ now₂
        unfold EyeTracker.doOpen
        simp [hcv, hopen]
      · intro hc
        rw [hopen] at hc
        cases hc
    · have hopen2 : t._is_open = false := by
        cases hb : t._is_open
        · rfl
        · exact absurd hb hopen
      simp only [hopen2, if_false] at h
      cases dev with
      | createRaises => cases h
      | created b =>
          cases b with
          | false => cases h
          | true =>
              have ht : t₂ = { t with
                  _cap := some (), _is_open := true, _frame_count := 0,
                  _last_frame_ts := now, _recent_fps := [] } := by
                cases h
                rfl
              subst ht
              refine ⟨rfl, ?_, fun _ => ⟨rfl, rfl, rfl⟩⟩
              intro dev₂ now₂
              unfold EyeTracker.doOpen
              simp [hcv]

/-- C8 witness: opening the default (closed) tracker succeeds and resets
the counters; a second `open`, even one whose device outcome would fail,
returns the state unchanged. -/
theorem open_idempotent_witness :
    ∃ t₂, ({} : EyeTracker).doOpen ⟨true, true, fun _ => 0, fun _ => (0, 0)⟩
        (.created true) 7 = .ok t₂ ∧
      t₂._is_open = true ∧
      t₂.doOpen ⟨true, true, fun _ => 0, fun _ => (0, 0)⟩ .createRaises 9 = .ok t₂ ∧
      t₂._frame_count = 0 ∧ t₂._recent_fps = [] := by
  refine ⟨{ ({} : EyeTracker) with
      _cap := some (), _is_open := true, _frame_count := 0,
      _last_frame_ts := 7, _recent_fps := [] }, rfl, ?_⟩
  have h := open_idempotent ⟨true, true, fun _ => 0, fun _ => (0, 0)⟩
    (.created true) 7 ({} : EyeTracker) _ rfl
  exact ⟨h.1, h.2.1 .createRaises 9, (h.2.2 rfl).1, (h.2.2 rfl).2.1⟩

/-- C9: `get_fps` returns 0 when the FPS window is empty; otherwise its
value is the median of the window: for ANY sorted rearrangement of the
recorded samples, it is the middle element for an odd count and the
average of the two middle elements for an even count. -/
theorem get_fps_median (t : EyeTracker) (arr : List ℚ)
    (hp : arr.Perm t._recent_fps) (hs : arr.Sorted (fun a b => a ≤ b)) :
    t.get_fps =
      if arr.isEmpty then 0
      else if arr.length % 2 = 1 then arr.getD (arr.length / 2) 0
      else (arr.getD (arr.length / 2 - 1) 0 + arr.getD (arr.length / 2) 0) / 2 := by
  have harr : arr = List.insertionSort (fun a b => a ≤ b) t._recent_fps :=
    List.eq_of_perm_of_sorted
      (hp.trans (List.perm_insertionSort (fun a b => a ≤ b) t._recent_fps).symm) hs
      (List.sorted_insertionSort (fun a b => a ≤ b) t._recent_fps)
  have hlen : arr.length = t._recent_fps.length := hp.length_eq
  have hemp : arr.isEmpty = t._recent_fps.isEmpty := by
    cases arr with
    | nil =>
        cases hl : t._recent_fps with
        | nil => simp
        | cons a l => rw [hl] at hlen; simp at hlen
    | cons a l =>
        cases hl : t._recent_fps with
        | nil => rw [hl] at hlen; simp at hlen
        | cons b l2 => simp
  unfold EyeTracker.get_fps
  rw [← hemp, ← harr]
  by_cases he : arr.isEmpty
  · simp [he]
  · simp only [he, if_false]
    by_cases hodd : arr.length % 2 = 1
    · simp [hodd]
    · simp only [hodd, if_false]
      ring_nf

/-- C9 witness: with the instantaneous-rate samples [28, 30, 32] the
estimate is 30, and with an empty window it is 0. -/
theorem get_fps_median_witness :
    ({ ({} : EyeTracker) with _recent_fps := [28, 30, 32] } : EyeTracker).get_fps = 30 ∧
    ({} : EyeTracker).get_fps = 0 := by
  constructor
  · have h := get_fps_median { ({} : EyeTracker) with _recent_fps := [28, 30, 32] }
      [28, 30, 32] (by rfl) (by norm_num [List.Sorted])
    rw [h]
    norm_num
  · have h := get_fps_median ({} : EyeTracker) [] (by rfl) (by simp [List.Sorted])
    rw [h]
    norm_num

/-- Embedding of `EyeTracker.process_frame`: identity without an
override; an override that raises is surfaced as the preprocess
failure. -/
def EyeTracker.process_frame (t : EyeTracker) (frame : Frame) : Except Err Frame :=
  match t.preprocess_fn with
  | some f =>
      match f frame with
      | .ok r => .ok r
      | .error _ => .error .preprocessFailure
  | none => .ok frame

/-- Embedding of `EyeTracker.extract_features`: an override that raises
is surfaced as the feature-extraction failure; the default path needs
numpy and returns the two intensity statistics of the frame (the
cv2-gray versus channel-mean split of the source only changes which
pixels enter those statistics, which `Env.grayStats` abstracts). -/
def EyeTracker.extract_features (t : EyeTracker) (env : Env) (frame : Frame) :
    Except Err (List ℚ) :=
  match t.feature_extractor with
  | some f =>
      match f frame with
      | .ok v => .ok v
      | .error _ => .error .featureExtractionFailure
  | none =>
      if env.npAvailable then
        let ms := env.grayStats frame
        .ok [ms.1, ms.2]
      else .error .numpyUnavailable

/-- Embedding of `EyeTracker.estimate_gaze`: an override that raises is
surfaced as the gaze-estimation failure; the default delegates to the
calibration model. -/
def EyeTracker.estimate_gaze (t : EyeTracker) (features : List ℚ) :
    Except Err (PyFloat × PyFloat) :=
  match t.gaze_estimator with
  | some g =>
      match g features with
      | .ok r => .ok r
      | .error _ => .error .gazeEstimationFailure
  | none => .ok (t.calibration_model.predict features)

/-- Embedding of `EyeTracker.calibrate`: runs `fit` and on success
stores the updated model; any `fit` failure is re-raised wrapped as a
calibration failure and the stored model stays as it was. -/
def EyeTracker.calibrate (t : EyeTracker) (samples : List CalibrationSample) :
    Except Err EyeTracker :=
  match t.calibration_model.fit samples with
  | (m₂, .ok _) => .ok { t with calibration_model := m₂ }
  | (_, .error e) => .error (.calibrationFailed e)

/-- The two per-frame stages the collection phase of
`run_calibration_routine` runs, in source order: preprocess, then
feature extraction on the processed frame. -/
def pipelineCalib (env : Env) (t : EyeTracker) (frame : Frame) :
    Except Err (Frame × List ℚ) :=
  match t.process_frame frame with
  | .error e => .error e
  | .ok processed =>
      match t.extract_features env processed with
      | .error e => .error e
      | .ok feats => .ok (processed, feats)

/-- The three per-frame stages `run_inference_loop` runs, in source
order: preprocess, feature extraction, gaze estimation. -/
def pipelineInfer (env : Env) (t : EyeTracker) (frame : Frame) :
    Except Err (Frame × List ℚ × (PyFloat × PyFloat)) :=
  match pipelineCalib env t frame with
  | .error e => .error e
  | .ok pf =>
      match t.estimate_gaze pf.2 with
      | .error e => .error e
      | .ok g => .ok (pf.1, pf.2, g)

/-- Embedding of `contextlib.suppress(Exception)` around a callback
invocation: whatever the callback does, nothing of it is observable. -/
def suppressAll {α : Type} (r : α) : Unit := ()

/-- Invoke the optional callback under the suppression boundary. -/
def callOpt {α : Type} (cb : Option (α → Except Unit Unit)) (x : α) : Unit :=
  match cb with
  | some f => suppressAll (f x)
  | none => ()

/-- The resumption condition of the generator `frames()`. -/
def framesCond (t : EyeTracker) : Bool := t._is_open && t._cap.isSome

/-- What one resumption of the generator `frames()` does before any
read: raise, finish (StopIteration), or go on to read a frame. -/
inductive NextAct
  | raise (e : Err)
  | stop
  | read
deriving DecidableEq

/-- The prelude of one `next()` on the generator `frames()`.  On the
very first resumption the generator body checks the lazy imports and
then raises if the stream is not open; on every later resumption the
while condition merely stops the generator.  During a run of either
loop the open/cap fields never change, so the condition is keyed only
on whether the generator has started. -/
def framesNextAct (env : Env) (t : EyeTracker) (started : Bool) : NextAct :=
  if started then
    if framesCond t then .read else .stop
  else
    if env.cv2Available && env.npAvailable then
      if framesCond t then .read else .raise .streamNotOpen
    else .raise .dependenciesUnavailable

/-- The inner while loop of `run_calibration_routine` for one target:
while the wall clock is within `spt` of `start` and fewer than `maxS`
samples were taken for this target, pull the next frame, run the two
stages (their failures propagate), append the sample and invoke the
suppressed callback.  Arguments after the callback: remaining device
frames, tracker state, next `time.time()` index, samples taken for this
target, whether the generator has started, samples collected so far. -/
def collectTarget (env : Env) (txy : ℚ × ℚ) (start spt : ℚ) (maxS : Nat)
    (cb : Option (CalibrationSample → Except Unit Unit)) :
    List Frame → EyeTracker → Nat → Nat → Bool → List CalibrationSample →
    Except Err (EyeTracker × List Frame × Nat × Bool × List CalibrationSample)
  | [], t, k, count, started, acc =>
      if env.clock k - start < spt ∧ count < maxS then
        match framesNextAct env t started with
        | .raise e => .error e
        | .stop => .ok (t, [], k + 1, started, acc)
        | .read => .ok (t, [], k + 2, true, acc)
      else .ok (t, [], k + 1, started, acc)
  | f :: rest, t, k, count, started, acc =>
      if env.clock k - start < spt ∧ count < maxS then
        match framesNextAct env t started with
        | .raise e => .error e
        | .stop => .ok (t, f :: rest, k + 1, started, acc)
        | .read =>
            let ts := env.clock (k + 1)
            let t₂ := t.recordFrame ts
            match pipelineCalib env t₂ f with
            | .error e => .error e
            | .ok pf =>
                let sample : CalibrationSample := ⟨pf.2, txy, ts⟩
                let u := callOpt cb sample
                collectTarget env txy start spt maxS cb
                  rest t₂ (k + 2) (count + 1) true (acc ++ [sample])
      else .ok (t, f :: rest, k + 1, started, acc)

/-- The outer for loop of `run_calibration_routine` over the targets,
in the given order, taking a fresh `start = time.time()` per target. -/
def runTargets (env : Env) (spt : ℚ) (maxS : Nat)
    (cb : Option (CalibrationSample → Except Unit Unit)) :
    List (ℚ × ℚ) → EyeTracker → List Frame → Nat → Bool → List CalibrationSample →
    Except Err (EyeTracker × List Frame × Nat × Bool × List CalibrationSample)
  | [], t, reads, k, started, acc => .ok (t, reads, k, started, acc)
  | txy :: more, t, reads, k, started, acc =>
      let start := env.clock k
      match collectTarget env txy start spt maxS cb reads t (k + 1) 0 started acc with
      | .error e => .error e
      | .ok (t₂, reads₂, k₂, started₂, acc₂) =>
          runTargets env spt maxS cb more t₂ reads₂ k₂ started₂ acc₂

/-- Embedding of `EyeTracker.run_calibration_routine`: requires the
tracker Open, collects per target, and — when at least one sample was
collected — calls `calibrate` (hence `fit`) once on the full collected
set before returning it; a `calibrate` failure propagates and nothing
is returned.  The second component instruments the run with the number
of `fit` invocations it performed. -/
def run_calibration_routine (env : Env) (t : EyeTracker) (targets : List (ℚ × ℚ))
    (spt : ℚ) (maxS : Nat) (cb : Option (CalibrationSample → Except Unit Unit))
    (reads : List Frame) (k : Nat) :
    Except Err (EyeTracker × List CalibrationSample) × Nat :=
  if t._is_open = false then (.error .streamNotOpen, 0)
  else
    match runTargets env spt maxS cb targets t reads k false [] with
    | .error e => (.error e, 0)
    | .ok (t₂, reads₂, k₂, started₂, collected) =>
        if collected.isEmpty then (.ok (t₂, collected), 0)
        else
          match t₂.calibrate collected with
          | .error e => (.error e, 1)
          | .ok t₃ => (.ok (t₃, collected), 1)

/-- One result event delivered to the inference callback: timestamp,
processed frame, gaze estimate, feature vector. -/
structure InferResult where
  timestamp : ℚ
  frame : Frame
  gaze_xy : PyFloat × PyFloat
  features : List ℚ
deriving DecidableEq

/-- The for loop of `run_inference_loop`: per frame run the three
stages (failures propagate), deliver the result to the suppressed
callback, then break if a stop duration is set and has elapsed.  The
result list is the trace of callback-visible result events. -/
def inferLoop (env : Env) (cb : Option (InferResult → Except Unit Unit))
    (stopAfter : Option ℚ) (start : ℚ) :
    List Frame → EyeTracker → Nat → Bool → List InferResult →
    Except Err (EyeTracker × List InferResult)
  | [], t, k, started, acc =>
      match framesNextAct env t started with
      | .raise e => .error e
      | .stop => .ok (t, acc)
      | .read => .ok (t, acc)
  | f :: rest, t, k, started, acc =>
      match framesNextAct env t started with
      | .raise e => .error e
      | .stop => .ok (t, acc)
      | .read =>
          let ts := env.clock k
          let t₂ := t.recordFrame ts
          match pipelineInfer env t₂ f with
          | .error e => .error e
          | .ok pr =>
              let res : InferResult := ⟨ts, pr.1, pr.2.2, pr.2.1⟩
              let u := callOpt cb res
              match stopAfter with
              | some s =>
                  if s ≤ env.clock (k + 1) - start then .ok (t₂, acc ++ [res])
                  else inferLoop env cb stopAfter start rest t₂ (k + 2) true (acc ++ [res])
              | none => inferLoop env cb stopAfter start rest t₂ (k + 1) true (acc ++ [res])

/-- Embedding of `EyeTracker.run_inference_loop`: requires the tracker
Open, then drives the read-process-estimate cycle over the delivered
frames. -/
def run_inference_loop (env : Env) (t : EyeTracker)
    (cb : Option (InferResult → Except Unit Unit)) (stopAfter : Option ℚ)
    (reads : List Frame) (k : Nat) :
    Except Err (EyeTracker × List InferResult) :=
  if t._is_open = false then .error .streamNotOpen
  else
    let start := env.clock k
    inferLoop env cb stopAfter start reads t (k + 1) false []

/-- C6: whenever the tracker is not Open (and the lazy imports are in
place, which open-ing would require anyway), the first element request
on `frames()`, starting `run_inference_loop`, and starting
`run_calibration_routine` all fail with the stream-not-open error and
nothing else. -/
theorem not_open_raises (env : Env) (t : EyeTracker)
    (cbR : Option (InferResult → Except Unit Unit))
    (cbS : Option (CalibrationSample → Except Unit Unit))
    (targets : List (ℚ × ℚ)) (spt : ℚ) (maxS : Nat)
    (stopAfter : Option ℚ) (reads reads₂ : List Frame) (k k₂ : Nat)
    (hdeps : env.cv2Available = true ∧ env.npAvailable = true)
    (h : t._is_open = false) :
    framesNextAct env t false = .raise .streamNotOpen ∧
    run_inference_loop env t cbR stopAfter reads k = .error .streamNotOpen ∧
    (run_calibration_routine env t targets spt maxS cbS reads₂ k₂).1 =
      .error .streamNotOpen := by
  refine ⟨?_, ?_, ?_⟩
  · unfold framesNextAct framesCond
    simp [hdeps.1, hdeps.2, h]
  · unfold run_inference_loop
    simp [h]
  · unfold run_calibration_routine
    simp [h]

/-- C6 witness: on the default (closed) tracker all three entry points
fail with the stream-not-open error. -/
theorem not_open_raises_witness :
    framesNextAct ⟨true, true, fun _ => 0, fun _ => (0, 0)⟩ ({} : EyeTracker) false =
        .raise .streamNotOpen ∧
    run_inference_loop ⟨true, true, fun _ => 0, fun _ => (0, 0)⟩ ({} : EyeTracker)
        none none [1, 2, 3] 0 = .error .streamNotOpen ∧
    (run_calibration_routine ⟨true, true, fun _ => 0, fun _ => (0, 0)⟩
        ({} : EyeTracker) [(0, 0)] 1 5 none [1, 2, 3] 0).1 = .error .streamNotOpen :=
  not_open_raises ⟨true, true, fun _ => 0, fun _ => (0, 0)⟩ ({} : EyeTracker)
    none none [(0, 0)] 1 5 none [1, 2, 3] [1, 2, 3] 0 0 ⟨rfl, rfl⟩ rfl

/-- The collection loop never looks at what the suppressed sample
callback did: any two callbacks produce identical runs. -/
lemma collectTarget_cb_irrel (env : Env) (txy : ℚ × ℚ) (start spt : ℚ) (maxS : Nat)
    (cb cb₂ : Option (CalibrationSample → Except Unit Unit)) :
    ∀ reads t k count started acc,
      collectTarget env txy start spt maxS cb reads t k count started acc =
      collectTarget env txy start spt maxS cb₂ reads t k count started acc := by
  intro reads
  induction reads with
  | nil => intro t k count started acc; rfl
  | cons f rest ih =>
      intro t k count started acc
      by_cases hc : env.clock k - start < spt ∧ count < maxS
      · simp only [collectTarget, hc, if_true]
        cases framesNextAct env t started with
        | raise e => rfl
        | stop => rfl
        | read =>
            simp only []
            cases pipelineCalib env (t.recordFrame (env.clock (k + 1))) f with
            | error e => rfl
            | ok pf => exact ih _ _ _ _ _
      · simp only [collectTarget, hc, if_false]

/-- The target loop never looks at what the suppressed sample callback
did. -/
lemma runTargets_cb_irrel (env : Env) (spt : ℚ) (maxS : Nat)
    (cb cb₂ : Option (CalibrationSample → Except Unit Unit)) :
    ∀ targets t reads k started acc,
      runTargets env spt maxS cb targets t reads k started acc =
      runTargets env spt maxS cb₂ targets t reads k started acc := by
  intro targets
  induction targets with
  | nil => intro t reads k started acc; rfl
  | cons txy more ih =>
      intro t reads k started acc
      simp only [runTargets]
      rw [collectTarget_cb_irrel env txy (env.clock k) spt maxS cb cb₂]
      cases collectTarget env txy (env.clock k) spt maxS cb₂ reads t (k + 1) 0 started acc with
      | error e => rfl
      | ok r =>
          obtain ⟨t₂, reads₂, k₂, started₂, acc₂⟩ := r
          exact ih _ _ _ _ _

/-- The inference loop never looks at what the suppressed result
callback did. -/
lemma inferLoop_cb_irrel (env : Env) (stopAfter : Option ℚ) (start : ℚ)
    (cb cb₂ : Option (InferResult → Except Unit Unit)) :
    ∀ reads t k started acc,
      inferLoop env cb stopAfter start reads t k started acc =
      inferLoop env cb₂ stopAfter start reads t k started acc := by
  intro reads
  induction reads with
  | nil => intro t k started acc; rfl
  | cons f rest ih =>
      intro t k started acc
      simp only [inferLoop]
      cases framesNextAct env t started with
      | raise e => rfl
      | stop => rfl
      | read =>
          simp only []
          cases pipelineInfer env (t.recordFrame (env.clock k)) f with
          | error e => rfl
          | ok pr =>
              simp only []
              cases stopAfter with
              | none => exact ih _ _ _ _
              | some s =>
                  by_cases hstop : s ≤ env.clock (k + 1) - start
                  · simp [hstop]
                  · simp only [hstop, if_false]
                    exact ih _ _ _ _

/-- C7: callback failures are isolated.  A run of the calibration
routine, and a run of the inference loop, with an arbitrary callback
(including one that raises on any or every invocation) produces exactly
the same outcome, collected samples, result trace and final state as
the same run with a callback that never raises: no callback failure
reaches the caller and no later frame is lost to one. -/
theorem callback_isolated (env : Env) (t : EyeTracker)
    (targets : List (ℚ × ℚ)) (spt : ℚ) (maxS : Nat)
    (cbS : CalibrationSample → Except Unit Unit)
    (cbR : InferResult → Except Unit Unit)
    (stopAfter : Option ℚ) (reads reads₂ : List Frame) (k k₂ : Nat) :
    run_calibration_routine env t targets spt maxS (some cbS) reads k =
      run_calibration_routine env t targets spt maxS (some (fun x => .ok ())) reads k ∧
    run_inference_loop env t (some cbR) stopAfter reads₂ k₂ =
      run_inference_loop env t (some (fun x => .ok ())) stopAfter reads₂ k₂ := by
  constructor
  · unfold run_calibration_routine
    rw [runTargets_cb_irrel env spt maxS (some cbS) (some (fun x => .ok ()))]
  · unfold run_inference_loop
    rw [inferLoop_cb_irrel env stopAfter (env.clock k₂) (some cbR) (some (fun x => .ok ()))]

/-- C7 witness: an inference run over ten frames whose callback raises
on the third frame equals the run with a never-raising callback, and
still delivers all ten result events; a calibration run with an
always-raising sample callback equals the run with a never-raising
one. -/
theorem callback_isolated_witness :
    (run_inference_loop ⟨true, true, fun _ => 0, fun _ => (0, 0)⟩
        { ({} : EyeTracker) with _cap := some (), _is_open := true }
        (some (fun r => if r.frame = 2 then .error () else .ok ()))
        none [0, 1, 2, 3, 4, 5, 6, 7, 8, 9] 0 =
      run_inference_loop ⟨true, true, fun _ => 0, fun _ => (0, 0)⟩
        { ({} : EyeTracker) with _cap := some (), _is_open := true }
        (some (fun x => .ok ())) none [0, 1, 2, 3, 4, 5, 6, 7, 8, 9] 0) ∧
    (∃ p, run_inference_loop ⟨true, true, fun _ => 0, fun _ => (0, 0)⟩
        { ({} : EyeTracker) with _cap := some (), _is_open := true }
        (some (fun r => if r.frame = 2 then .error () else .ok ()))
        none [0, 1, 2, 3, 4, 5, 6, 7, 8, 9] 0 = .ok p ∧ p.2.length = 10) ∧
    (run_calibration_routine ⟨true, true, fun _ => 0, fun _ => (0, 0)⟩
        { ({} : EyeTracker) with _cap := some (), _is_open := true }
        [(0, 0)] 1 3 (some (fun s => .error ())) [1, 2] 0 =
      run_calibration_routine ⟨true, true, fun _ => 0, fun _ => (0, 0)⟩
        { ({} : EyeTracker) with _cap := some (), _is_open := true }
        [(0, 0)] 1 3 (some (fun x => .ok ())) [1, 2] 0) := by
  have h := callback_isolated ⟨true, true, fun _ => 0, fun _ => (0, 0)⟩
    { ({} : EyeTracker) with _cap := some (), _is_open := true }
    [(0, 0)] 1 3 (fun s => .error ())
    (fun r => if r.frame = 2 then .error () else .ok ())
    none [1, 2] [0, 1, 2, 3, 4, 5, 6, 7, 8, 9] 0 0
  exact ⟨h.2, ⟨_, rfl, rfl⟩, h.1⟩


/-- Every successful run of the per-target collection loop appends some
batch of new samples, all labelled with this target, keeping the
per-target count within `maxS`. -/
lemma collectTarget_ok (env : Env) (txy : ℚ × ℚ) (start spt : ℚ) (maxS : Nat)
    (cb : Option (CalibrationSample → Except Unit Unit)) :
    ∀ reads t k count started acc t₂ reads₂ k₂ started₂ acc₂,
      collectTarget env txy start spt maxS cb reads t k count started acc =
        .ok (t₂, reads₂, k₂, started₂, acc₂) →
      count ≤ maxS →
      ∃ new, acc₂ = acc ++ new ∧ count + new.length ≤ maxS ∧
        ∀ s ∈ new, s.target_xy = txy := by
  intro reads
  induction reads with
  | nil =>
      intro t k count started acc t₂ reads₂ k₂ started₂ acc₂ h hcount
      simp only [collectTarget] at h
      by_cases hc : env.clock k - start < spt ∧ count < maxS
      · rw [if_pos hc] at h
        cases hact : framesNextAct env t started with
        | raise e => simp [hact] at h
        | stop =>
            simp only [hact, Except.ok.injEq, Prod.mk.injEq] at h
            exact ⟨[], by simp [h.2.2.2.2.symm], by simpa using hcount, by simp⟩
        | read =>
            simp only [hact, Except.ok.injEq, Prod.mk.injEq] at h
            exact ⟨[], by simp [h.2.2.2.2.symm], by simpa using hcount, by simp⟩
      · rw [if_neg hc] at h
        simp only [Except.ok.injEq, Prod.mk.injEq] at h
        exact ⟨[], by simp [h.2.2.2.2.symm], by simpa using hcount, by simp⟩
  | cons f rest ih =>
      intro t k count started acc t₂ reads₂ k₂ started₂ acc₂ h hcount
      simp only [collectTarget] at h
      by_cases hc : env.clock k - start < spt ∧ count < maxS
      · rw [if_pos hc] at h
        cases hact : framesNextAct env t started with
        | raise e => simp [hact] at h
        | stop =>
            simp only [hact, Except.ok.injEq, Prod.mk.injEq] at h
            exact ⟨[], by simp [h.2.2.2.2.symm], by simpa using hcount, by simp⟩
        | read =>
            simp only [hact] at h
            cases hp : pipelineCalib env (t.recordFrame (env.clock (k + 1))) f with
            | error e => simp [hp] at h
            | ok pf =>
                simp only [hp] at h
                obtain ⟨new₂, ha, hb, htar⟩ :=
                  ih (t.recordFrame (env.clock (k + 1))) (k + 2) (count + 1) true
                    (acc ++ [⟨pf.2, txy, env.clock (k + 1)⟩])
                    t₂ reads₂ k₂ started₂ acc₂ h (by omega)
                refine ⟨⟨pf.2, txy, env.clock (k + 1)⟩ :: new₂, ?_, ?_, ?_⟩
                · rw [ha]
                  simp
                · simp only [List.length_cons]
                  omega
                · intro s hs
                  rcases List.mem_cons.mp hs with hs1 | hs2
                  · rw [hs1]
                  · exact htar s hs2
      · rw [if_neg hc] at h
        simp only [Except.ok.injEq, Prod.mk.injEq] at h
        exact ⟨[], by simp [h.2.2.2.2.symm], by simpa using hcount, by simp⟩

/-- Every successful run of the target loop appends one batch per
target, in target order, each capped at `maxS` samples and labelled
with its own target. -/
lemma runTargets_ok (env : Env) (spt : ℚ) (maxS : Nat)
    (cb : Option (CalibrationSample → Except Unit Unit)) :
    ∀ targets t reads k started acc t₂ reads₂ k₂ started₂ acc₂,
      runTargets env spt maxS cb targets t reads k started acc =
        .ok (t₂, reads₂, k₂, started₂, acc₂) →
      ∃ batches : List (List CalibrationSample),
        acc₂ = acc ++ batches.flatten ∧
        batches.length = targets.length ∧
        ∀ p ∈ batches.zip targets, p.1.length ≤ maxS ∧ ∀ s ∈ p.1, s.target_xy = p.2 := by
  intro targets
  induction targets with
  | nil =>
      intro t reads k started acc t₂ reads₂ k₂ started₂ acc₂ h
      simp only [runTargets, Except.ok.injEq, Prod.mk.injEq] at h
      exact ⟨[], by simp [h.2.2.2.2.symm], by simp, by simp⟩
  | cons txy more ih =>
      intro t reads k started acc t₂ reads₂ k₂ started₂ acc₂ h
      simp only [runTargets] at h
      cases hcol : collectTarget env txy (env.clock k) spt maxS cb reads t (k + 1) 0 started acc with
      | error e => simp [hcol] at h
      | ok r =>
          obtain ⟨ta, readsa, ka, starteda, acca⟩ := r
          simp only [hcol] at h
          obtain ⟨new, hnew, hlen, htar⟩ :=
            collectTarget_ok env txy (env.clock k) spt maxS cb
              reads t (k + 1) 0 started acc ta readsa ka starteda acca hcol (Nat.zero_le _)
          obtain ⟨batches₂, hb1, hb2, hb3⟩ :=
            ih ta readsa ka starteda acca t₂ reads₂ k₂ started₂ acc₂ h
          refine ⟨new :: batches₂, ?_, ?_, ?_⟩
          · rw [hb1, hnew]
            simp
          · simp [hb2]
          · intro p hp
            rcases List.mem_cons.mp hp with hp1 | hp2
            · rw [hp1]
              exact ⟨by simpa using hlen, htar⟩
            · exact hb3 p hp2


/-- C2 (amended): the calibration routine visits the targets in order,
collecting at most `maxS` samples per target; when the routine returns
a sample list, that list is exactly the per-target batches joined in
target order, with `fit` invoked once if it is non-empty and zero times
otherwise; `fit` is invoked (exactly once, on the full collected set)
precisely when the collection phase completed with at least one sample;
and a `fit` failure propagates to the caller instead of the collected
list being returned. -/
theorem calibration_routine_behaviour (env : Env) (t : EyeTracker)
    (targets : List (ℚ × ℚ)) (spt : ℚ) (maxS : Nat)
    (cb : Option (CalibrationSample → Except Unit Unit))
    (reads : List Frame) (k : Nat) :
    (∀ t₂ collected,
        (run_calibration_routine env t targets spt maxS cb reads k).1 =
            .ok (t₂, collected) →
        (∃ batches : List (List CalibrationSample),
            collected = batches.flatten ∧
            batches.length = targets.length ∧
            ∀ p ∈ batches.zip targets,
              p.1.length ≤ maxS ∧ ∀ s ∈ p.1, s.target_xy = p.2) ∧
        (run_calibration_routine env t targets spt maxS cb reads k).2 =
          (if collected.isEmpty then 0 else 1)) ∧
    ((run_calibration_routine env t targets spt maxS cb reads k).2 = 1 ↔
      (t._is_open = true ∧ ∃ t₂ reads₂ k₂ started₂ collected,
        runTargets env spt maxS cb targets t reads k false [] =
          .ok (t₂, reads₂, k₂, started₂, collected) ∧ collected ≠ [])) ∧
    (∀ t₂ reads₂ k₂ started₂ collected e,
        runTargets env spt maxS cb targets t reads k false [] =
          .ok (t₂, reads₂, k₂, started₂, collected) →
        t._is_open = true →
        collected ≠ [] →
        t₂.calibrate collected = .error e →
        (run_calibration_routine env t targets spt maxS cb reads k).1 = .error e) := by
  by_cases hopen : t._is_open = true
  · cases hrun : runTargets env spt maxS cb targets t reads k false [] with
    | error e =>
        have hrr : run_calibration_routine env t targets spt maxS cb reads k =
            (.error e, 0) := by
          simp [run_calibration_routine, hopen, hrun]
        refine ⟨?_, ?_, ?_⟩
        · intro t₂ collected h
          rw [hrr] at h
          simp at h
        · rw [hrr]
          constructor
          · intro h
            simp at h
          · rintro ⟨_, t₂, reads₂, k₂, started₂, collected, hok, _⟩
            cases hok
        · intro t₂ reads₂ k₂ started₂ collected e₂ hok hop hne₂ hcal₂
          cases hok
    | ok r =>
        obtain ⟨ta, readsa, ka, starteda, collecteda⟩ := r
        by_cases hnil : collecteda = []
        · have hempT : collecteda.isEmpty = true := by rw [hnil]; rfl
          have hrr : run_calibration_routine env t targets spt maxS cb reads k =
              (.ok (ta, collecteda), 0) := by
            simp [run_calibration_routine, hopen, hrun, hempT]
          refine ⟨?_, ?_, ?_⟩
          · intro t₂ collected h
            rw [hrr] at h
            simp only [Except.ok.injEq, Prod.mk.injEq] at h
            obtain ⟨ht2, hcol⟩ := h
            constructor
            · obtain ⟨batches, hb1, hb2, hb3⟩ :=
                runTargets_ok env spt maxS cb targets t reads k false []
                  ta readsa ka starteda collecteda hrun
              exact ⟨batches, by rw [← hcol, hb1]; simp, hb2, hb3⟩
            · rw [hrr, ← hcol, hnil]
              rfl
          · rw [hrr]
            constructor
            · intro h
              simp at h
            · rintro ⟨_, t₂, reads₂, k₂, started₂, collected, hok, hne⟩
              simp only [Except.ok.injEq, Prod.mk.injEq] at hok
              exact absurd (hok.2.2.2.2.symm.trans hnil) hne
          · intro t₂ reads₂ k₂ started₂ collected e hok hop hne₂ hcal₂
            simp only [Except.ok.injEq, Prod.mk.injEq] at hok
            exact absurd (hok.2.2.2.2.symm.trans hnil) hne₂
        · have hempF : collecteda.isEmpty = false := by
            cases collecteda
            · exact absurd rfl hnil
            · rfl
          cases hcal : ta.calibrate collecteda with
          | error e =>
              have hrr : run_calibration_routine env t targets spt maxS cb reads k =
                  (.error e, 1) := by
                simp [run_calibration_routine, hopen, hrun, hempF, hcal]
              refine ⟨?_, ?_, ?_⟩
              · intro t₂ collected h
                rw [hrr] at h
                simp at h
              · rw [hrr]
                exact ⟨fun _ => ⟨hopen, ta, readsa, ka, starteda, collecteda, rfl, hnil⟩,
                  fun _ => rfl⟩
              · intro t₂ reads₂ k₂ started₂ collected e₂ hok hop hne₂ hcal₂
                simp only [Except.ok.injEq, Prod.mk.injEq] at hok
                obtain ⟨h1, h2, h3, h4, h5⟩ := hok
                rw [← h1, ← h5, hcal] at hcal₂
                simp only [Except.error.injEq] at hcal₂
                rw [hrr, hcal₂]
          | ok t₃ =>
              have hrr : run_calibration_routine env t targets spt maxS cb reads k =
                  (.ok (t₃, collecteda), 1) := by
                simp [run_calibration_routine, hopen, hrun, hempF, hcal]
              refine ⟨?_, ?_, ?_⟩
              · intro t₂ collected h
                rw [hrr] at h
                simp only [Except.ok.injEq, Prod.mk.injEq] at h
                obtain ⟨ht2, hcol⟩ := h
                constructor
                · obtain ⟨batches, hb1, hb2, hb3⟩ :=
                    runTargets_ok env spt maxS cb targets t reads k false []
                      ta readsa ka starteda collecteda hrun
                  exact ⟨batches, by rw [← hcol, hb1]; simp, hb2, hb3⟩
                · rw [hrr, ← hcol, hempF]
                  rfl
              · rw [hrr]
                exact ⟨fun _ => ⟨hopen, ta, readsa, ka, starteda, collecteda, rfl, hnil⟩,
                  fun _ => rfl⟩
              · intro t₂ reads₂ k₂ started₂ collected e₂ hok hop hne₂ hcal₂
                simp only [Except.ok.injEq, Prod.mk.injEq] at hok
                obtain ⟨h1, h2, h3, h4, h5⟩ := hok
                rw [← h1, ← h5, hcal] at hcal₂
                cases hcal₂
  · have hopenF : t._is_open = false := by
      cases hb : t._is_open
      · rfl
      · exact absurd hb hopen
    have hrr : run_calibration_routine env t targets spt maxS cb reads k =
        (.error .streamNotOpen, 0) := by
      unfold run_calibration_routine
      rw [if_pos hopenF]
    refine ⟨?_, ?_, ?_⟩
    · intro t₂ collected h
      rw [hrr] at h
      simp at h
    · rw [hrr]
      constructor
      · intro h
        simp at h
      · rintro ⟨hop, _⟩
        rw [hop] at hopenF
        cases hopenF
    · intro t₂ reads₂ k₂ started₂ collected e hok hop
      rw [hop] at hopenF
      cases hopenF

/-- C2 counterexample: the routine does NOT return the collected list
regardless of fit outcome.  On an open tracker whose feature extractor
returns vectors of different lengths for different frames, both frames
are collected for the single target, the final `fit` fails on the
inconsistent dimensions, and the routine raises the wrapped calibration
error instead of returning the two collected samples. -/
theorem calibration_routine_counterexample :
    (run_calibration_routine ⟨true, true, fun _ => 0, fun _ => (0, 0)⟩
        { ({} : EyeTracker) with
          _cap := some (), _is_open := true,
          feature_extractor := some (fun f => .ok (List.replicate f 0)) }
        [(0, 0)] 1 2 none [1, 2] 0).1 =
      .error (.calibrationFailed .inconsistentFeatureDimension) := by
  norm_num [run_calibration_routine, runTargets, collectTarget, framesNextAct,
    framesCond, pipelineCalib, EyeTracker.process_frame, EyeTracker.extract_features,
    EyeTracker.recordFrame, EyeTracker.calibrate, CalibrationModel.fit, callOpt,
    pushFps, List.replicate]

/-- C2 witness: two targets, one sample allowed per target, two frames:
the run returns exactly one batch per target in order, each of one
sample carrying its own target, and performed one fit call. -/
theorem calibration_routine_behaviour_witness :
    ∃ (batches : List (List CalibrationSample)),
      ([⟨[0, 0], (0, 0), 0⟩, ⟨[0, 0], (1, 1), 0⟩] : List CalibrationSample) =
        batches.flatten ∧
      batches.length = 2 ∧
      (∀ p ∈ batches.zip [((0 : ℚ), (0 : ℚ)), (1, 1)],
        p.1.length ≤ 1 ∧ ∀ s ∈ p.1, s.target_xy = p.2) ∧
      (run_calibration_routine ⟨true, true, fun _ => 0, fun _ => (0, 0)⟩
          { ({} : EyeTracker) with _cap := some (), _is_open := true }
          [(0, 0), (1, 1)] 1 1 none [5, 6] 0).2 = 1 := by
  have hrun : (run_calibration_routine ⟨true, true, fun _ => 0, fun _ => (0, 0)⟩
      { ({} : EyeTracker) with _cap := some (), _is_open := true }
      [(0, 0), (1, 1)] 1 1 none [5, 6] 0).1 =
      .ok ({ ({} : EyeTracker) with
              _cap := some (), _is_open := true, _frame_count := 2,
              calibration_model := ⟨some [[0, 0], [0, 0]], some (1 / 2, 1 / 2)⟩ },
            [⟨[0, 0], (0, 0), 0⟩, ⟨[0, 0], (1, 1), 0⟩]) := by
    norm_num [run_calibration_routine, runTargets, collectTarget, framesNextAct,
      framesCond, pipelineCalib, EyeTracker.process_frame, EyeTracker.extract_features,
      EyeTracker.recordFrame, EyeTracker.calibrate, CalibrationModel.fit, callOpt,
      pushFps, List.replicate]
  obtain ⟨⟨batches, h1, h2, h3⟩, hcount⟩ :=
    (calibration_routine_behaviour ⟨true, true, fun _ => 0, fun _ => (0, 0)⟩
        { ({} : EyeTracker) with _cap := some (), _is_open := true }
        [(0, 0), (1, 1)] 1 1 none [5, 6] 0).1
      _ [⟨[0, 0], (0, 0), 0⟩, ⟨[0, 0], (1, 1), 0⟩] hrun
  refine ⟨batches, h1, by simpa using h2, h3, ?_⟩
  rw [hcount]
  rfl

/-- The per-frame stages read only the stage overrides and the
calibration model, none of which the generator's bookkeeping update
touches. -/
lemma pipelineCalib_recordFrame (env : Env) (t : EyeTracker) (ts : ℚ) (f : Frame) :
    pipelineCalib env (t.recordFrame ts) f = pipelineCalib env t f := rfl

/-- The three inference stages are likewise untouched by the
generator's bookkeeping update. -/
lemma pipelineInfer_recordFrame (env : Env) (t : EyeTracker) (ts : ℚ) (f : Frame) :
    pipelineInfer env (t.recordFrame ts) f = pipelineInfer env t f := rfl

/-- C3 counterexample: a per-frame pipeline failure DOES terminate the
loop.  On an open tracker whose feature extractor raises, the inference
loop over a two-frame stream stops at the first frame with the
feature-extraction error — the frame sequence was not exhausted, no
duration was set and close was never called. -/
theorem inference_loop_counterexample :
    run_inference_loop ⟨true, true, fun _ => 0, fun _ => (0, 0)⟩
        { ({} : EyeTracker) with
          _cap := some (), _is_open := true,
          feature_extractor := some (fun f => .error ()) }
        none none [1, 2] 0 = .error .featureExtractionFailure := rfl

/-- C3 (amended): a failure raised by a per-frame pipeline stage
(preprocess, feature extraction or gaze estimation) is NOT caught at
the iteration boundary: it propagates out of `run_inference_loop`, and
out of the collection phase of `run_calibration_routine`, terminating
the run at that frame with that error, whatever frames remain.  Only
stream exhaustion or duration expiry end the loop without an error. -/
theorem stage_failure_propagates (env : Env) (t : EyeTracker) (e e₂ : Err)
    (cbR : Option (InferResult → Except Unit Unit))
    (cbS : Option (CalibrationSample → Except Unit Unit))
    (stopAfter : Option ℚ) (f : Frame) (rest : List Frame)
    (txy : ℚ × ℚ) (more : List (ℚ × ℚ)) (spt : ℚ) (maxS : Nat) (k k₂ : Nat)
    (hopen : t._is_open = true) (hcap : t._cap.isSome = true)
    (hdeps : env.cv2Available = true ∧ env.npAvailable = true)
    (hinfer : pipelineInfer env t f = .error e)
    (hcal : pipelineCalib env t f = .error e₂)
    (htime : env.clock (k₂ + 1) - env.clock k₂ < spt) (hmax : 0 < maxS) :
    run_inference_loop env t cbR stopAfter (f :: rest) k = .error e ∧
    (run_calibration_routine env t (txy :: more) spt maxS cbS (f :: rest) k₂).1 =
      .error e₂ := by
  have hact : framesNextAct env t false = .read := by
    unfold framesNextAct framesCond
    simp [hdeps.1, hdeps.2, hopen, hcap]
  constructor
  · unfold run_inference_loop
    rw [hopen]
    simp only [Bool.true_eq_false, if_false]
    simp only [inferLoop, hact]
    rw [pipelineInfer_recordFrame, hinfer]
  · unfold run_calibration_routine
    rw [hopen]
    simp only [Bool.true_eq_false, if_false]
    simp only [runTargets]
    have hcond : env.clock (k₂ + 1) - env.clock k₂ < spt ∧ 0 < maxS := ⟨htime, hmax⟩
    simp only [collectTarget, hact]
    rw [if_pos hcond, pipelineCalib_recordFrame, hcal]

/-- C3 witness: with a feature extractor that raises, both loops stop
at the very first frame with the feature-extraction error even though
a second frame was available. -/
theorem stage_failure_propagates_witness :
    run_inference_loop ⟨true, true, fun _ => 0, fun _ => (0, 0)⟩
        { ({} : EyeTracker) with
          _cap := some (), _is_open := true,
          feature_extractor := some (fun f => .error ()) }
        none none [3, 4] 0 = .error .featureExtractionFailure ∧
    (run_calibration_routine ⟨true, true, fun _ => 0, fun _ => (0, 0)⟩
        { ({} : EyeTracker) with
          _cap := some (), _is_open := true,
          feature_extractor := some (fun f => .error ()) }
        [(0, 0)] 1 1 none [3, 4] 0).1 = .error .featureExtractionFailure := by
  have h := stage_failure_propagates ⟨true, true, fun _ => 0, fun _ => (0, 0)⟩
    { ({} : EyeTracker) with
      _cap := some (), _is_open := true,
      feature_extractor := some (fun f => .error ()) }
    .featureExtractionFailure .featureExtractionFailure none none none 3 [4]
    (0, 0) [] 1 1 0 0 rfl rfl ⟨rfl, rfl⟩ rfl rfl (by norm_num) (by norm_num)
  exact h
